import Mathlib

/-!
Shallow embedding of the polyinsider ingestion-and-detection pipeline
(Go sources under internal/store, internal/detector, internal/ingest),
together with theorems settling the frozen specification claims.

Modelling conventions:
* Go `float64` prices/values are modelled as `ℚ`; the claims under study are
  structural (control flow, comparisons at stated thresholds) and do not
  depend on binary rounding.
* Go `time.Time` values are modelled as `Int` (milliseconds).
* Go maps are modelled as functions into `Option`; a missing key is `none`.
* `strconv.ParseFloat` / `fmt.Sscanf("%f")` are modelled by executable
  decimal-string parsers covering sign, integer and fractional digits;
  exponent, hexadecimal and infinity forms are not modelled (no claim
  depends on them).  A failed parse yields `none`, mirrored to `0` exactly
  as the Go helpers do.
-/

namespace Polyinsider

/-! ### Data model (internal/store/models.go) -/

/-- Trade mirrors `store.Trade`. -/
structure Trade where
  id : String
  marketId : String
  assetId : String
  makerAddress : String
  takerAddress : String
  side : String
  outcome : String
  size : String
  price : ℚ
  valueUsd : ℚ
  timestamp : Int
  tradeId : String
  transactionHash : String
deriving DecidableEq, Repr

/-- Suspect mirrors `store.Suspect`; the Go `Meta map[string]interface{}`
holds only numeric context here, modelled as an association list. -/
structure Suspect where
  trade : Trade
  signalType : String
  nonce : Int
  meta : List (String × ℚ)
deriving DecidableEq, Repr

/-- Detection-relevant configuration fields of `config.Config`. -/
structure Config where
  minValueUSD : ℚ
  whaleValueUSD : ℚ
  freshWalletNonce : Int
  burstCount : Int
  burstWindow : Int
deriving Repr

/-! ### Burst tracker (detector/burst.go, src/unnamed/part_005) -/

/-- BurstTracker mirrors the Go struct: a map from address to the stored
timestamp slice, plus the window length. -/
structure BurstTracker where
  trades : String → Option (List Int)
  window : Int

/-- NewBurstTracker mirrors the Go constructor: empty map. -/
def NewBurstTracker (window : Int) : BurstTracker :=
  ⟨fun _ => none, window⟩

/-- The index computation of the pruning loop inside `BurstTracker.Record`:
scan for the first timestamp strictly after the cutoff (`t.After(cutoff)`),
breaking there; if none is after the cutoff the index becomes the length
(the loop's `i == len(timestamps)-1` special case); an empty slice leaves
the initial value `0`. -/
def firstFreshIdx (cutoff : Int) : List Int → Nat
  | [] => 0
  | t :: rest => if cutoff < t then 0 else firstFreshIdx cutoff rest + 1

/-- Record mirrors `BurstTracker.Record`: prune, append `now`, store,
return the new length.  `now` stands for the `time.Now()` call. -/
def BurstTracker.Record (b : BurstTracker) (address : String) (now : Int) :
    Nat × BurstTracker :=
  let cutoff := now - b.window
  let timestamps := (b.trades address).getD []
  let timestamps := timestamps.drop (firstFreshIdx cutoff timestamps)
  let timestamps := timestamps ++ [now]
  (timestamps.length,
    { b with trades := fun a => if a = address then some timestamps else b.trades a })

/-- Cleanup mirrors `BurstTracker.Cleanup`: drop every key whose slice is
empty or whose most recent timestamp is not after the cutoff. -/
def BurstTracker.Cleanup (b : BurstTracker) (now : Int) : BurstTracker :=
  let cutoff := now - b.window
  { b with trades := fun addr =>
      match b.trades addr with
      | none => none
      | some timestamps =>
        if timestamps.length = 0 ∨ ¬ cutoff < timestamps.getLastD 0 then none
        else some timestamps }

/-! ### Signal detector (internal/detector/signals.go) -/

/-- Detector mirrors the Go struct (configuration, last-price map, burst
tracker); the mutex only serializes access and has no sequential content. -/
structure Detector where
  cfg : Config
  lastPrices : String → Option ℚ
  burstTracker : BurstTracker

/-- NewDetector mirrors the Go constructor. -/
def NewDetector (cfg : Config) : Detector :=
  ⟨cfg, fun _ => none, NewBurstTracker cfg.burstWindow⟩

/-- Check 1 of `Detect`: the price-shock rule, applied to the previous
price read out of the map (`none` when the key was absent). -/
def shockCheck (t : Trade) (nonce : Int) (lastPrice? : Option ℚ) : List Suspect :=
  match lastPrice? with
  | none => []
  | some lastPrice =>
    if 0 < lastPrice then
      let pctChange := |t.price - lastPrice| / lastPrice
      if 0.05 ≤ pctChange then
        [⟨t, "PRICE_SHOCK", nonce,
          [("prev_price", lastPrice), ("new_price", t.price), ("pct_change", pctChange)]⟩]
      else []
    else []

/-- Check 2 of `Detect`: the whale rule. -/
def whaleCheck (cfg : Config) (t : Trade) (nonce : Int) : List Suspect :=
  if cfg.whaleValueUSD ≤ t.valueUsd then [⟨t, "WHALE", nonce, []⟩] else []

/-- Check 3 of `Detect`: the fresh-insider rule. -/
def freshInsiderCheck (cfg : Config) (t : Trade) (nonce : Int) : List Suspect :=
  if 0 ≤ nonce ∧ cfg.minValueUSD ≤ t.valueUsd ∧ nonce ≤ cfg.freshWalletNonce then
    [⟨t, "FRESH_INSIDER", nonce, []⟩]
  else []

/-- Check 4 of `Detect`: the panic-burst rule, applied to the count the
burst tracker returned. -/
def panicBurstCheck (cfg : Config) (t : Trade) (nonce : Int) (count : Nat) : List Suspect :=
  if cfg.burstCount ≤ (count : Int) then [⟨t, "PANIC_BURST", nonce, []⟩] else []

/-- Detect mirrors `Detector.Detect`: the four checks run in order, each
appending at most one suspect; the last-price map is read and overwritten
first; the burst tracker is only consulted for a non-empty maker address.
`now` stands for the `time.Now()` call inside `BurstTracker.Record`. -/
def Detect (d : Detector) (t : Trade) (nonce : Int) (now : Int) :
    List Suspect × Detector :=
  let lastPrice? := d.lastPrices t.assetId
  let lastPricesUpd := fun a => if a = t.assetId then some t.price else d.lastPrices a
  let shock := shockCheck t nonce lastPrice?
  let whale := whaleCheck d.cfg t nonce
  let fresh := freshInsiderCheck d.cfg t nonce
  if t.makerAddress ≠ "" then
    let r := d.burstTracker.Record t.makerAddress now
    (shock ++ whale ++ fresh ++ panicBurstCheck d.cfg t nonce r.1,
      { d with lastPrices := lastPricesUpd, burstTracker := r.2 })
  else
    (shock ++ whale ++ fresh, { d with lastPrices := lastPricesUpd })

/-- Folds a sequence of detect calls (trade, nonce, now) over a detector,
keeping only the final state. -/
def DetectMany (d : Detector) : List (Trade × Int × Int) → Detector
  | [] => d
  | c :: rest => DetectMany (Detect d c.1 c.2.1 c.2.2).2 rest

/-- ShouldEnrich mirrors `Detector.ShouldEnrich`. -/
def ShouldEnrich (d : Detector) (t : Trade) : Bool :=
  decide (d.cfg.minValueUSD ≤ t.valueUsd) && decide (t.makerAddress ≠ "")

/-! ### Defensive numeric parsing (internal/ingest/parser.go, trades_api.go) -/

/-- Value of a list of decimal digit characters. -/
def digitsToNat (ds : List Char) : Nat :=
  ds.foldl (fun acc c => acc * 10 + (c.toNat - 48)) 0

/-- Decimal-string semantics of `strconv.ParseFloat`: optional sign,
integer digits, optional fractional digits; at least one digit overall.
Exponent/hex/infinity forms are not modelled (no claim depends on them);
`none` is the error case. -/
def parseDecimal (s : String) : Option ℚ :=
  let cs := s.toList
  let sign : ℚ := match cs with
    | '-' :: _ => -1
    | _ => 1
  let cs := match cs with
    | '-' :: rest => rest
    | '+' :: rest => rest
    | _ => cs
  let intPart := cs.takeWhile Char.isDigit
  let rest := cs.dropWhile Char.isDigit
  match rest with
  | [] =>
    if intPart = [] then none
    else some (sign * (digitsToNat intPart : ℚ))
  | '.' :: frac =>
    if frac.all Char.isDigit ∧ (intPart ≠ [] ∨ frac ≠ []) then
      some (sign * ((digitsToNat intPart : ℚ) +
        (digitsToNat frac : ℚ) / (10 ^ frac.length)))
    else none
  | _ => none

/-- parseFloat mirrors the parser.go helper: empty string and parse
failures both collapse to `0` (the error from `strconv.ParseFloat` is
discarded). -/
def parseFloat (s : String) : ℚ :=
  if s = "" then 0 else (parseDecimal s).getD 0

/-- Longest-leading-decimal semantics of `fmt.Sscanf(s, "%f", &f)`: a sign
and digits read greedily from the front; `none` when no digit is read. -/
def parseDecimalLeading (s : String) : Option ℚ :=
  let cs := s.toList
  let sign : ℚ := match cs with
    | '-' :: _ => -1
    | _ => 1
  let cs := match cs with
    | '-' :: rest => rest
    | '+' :: rest => rest
    | _ => cs
  let intPart := cs.takeWhile Char.isDigit
  let rest := cs.dropWhile Char.isDigit
  let frac := match rest with
    | '.' :: r => r.takeWhile Char.isDigit
    | _ => []
  if intPart = [] ∧ frac = [] then none
  else some (sign * ((digitsToNat intPart : ℚ) +
    (digitsToNat frac : ℚ) / (10 ^ frac.length)))

/-- parseFloatSafe mirrors the trades_api.go helper: empty string and scan
failures leave the zero value in place. -/
def parseFloatSafe (s : String) : ℚ :=
  if s = "" then 0 else (parseDecimalLeading s).getD 0

/-- calculateValueUSD mirrors parser.go: parse the size, bail out to `0`
on zero, rescale raw USDC-looking magnitudes, and return the size as the
value; the `price` argument is accepted but never used, exactly as in the
source. -/
def calculateValueUSD (sizeStr : String) (price : ℚ) : ℚ :=
  let size := parseFloat sizeStr
  if size = 0 then 0
  else if 1000000 < size then size / 1000000
  else size

/-- Integer-string semantics of `strconv.ParseInt(v, 10, 64)`, including
the 64-bit range check. -/
def parseIntString (s : String) : Option Int :=
  let cs := s.toList
  let sign : Int := match cs with
    | '-' :: _ => -1
    | _ => 1
  let ds := match cs with
    | '-' :: rest => rest
    | '+' :: rest => rest
    | _ => cs
  if ds ≠ [] ∧ ds.all Char.isDigit then
    let v : Int := sign * (digitsToNat ds : Int)
    if -(2 ^ 63) ≤ v ∧ v ≤ 2 ^ 63 - 1 then some v else none
  else none

/-- parseTimestamp mirrors parser.go, with times in milliseconds: for each
candidate string, skip empties, accept integer strings (above `1e12` they
are already milliseconds, otherwise seconds), fall back to arrival time
`now`.  The RFC3339-style format attempts are not modelled: a value in one
of those layouts falls through to the next candidate here (no claim under
study depends on a formatted timestamp). -/
def parseTimestamp (now : Int) : List String → Int
  | [] => now
  | v :: rest =>
    if v = "" then parseTimestamp now rest
    else
      match parseIntString v with
      | some ts => if 1000000000000 < ts then ts else ts * 1000
      | none => parseTimestamp now rest

/-! ### Trade normalization (internal/ingest/parser.go) -/

/-- TradeData mirrors the flexible websocket trade schema. -/
structure TradeData where
  id : String
  tradeId : String
  market : String
  assetId : String
  maker : String
  taker : String
  makerAddress : String
  takerAddress : String
  side : String
  size : String
  price : String
  outcome : String
  timestamp : String
  transactionHash : String
  matchTime : String
  status : String
deriving DecidableEq, Repr

/-- Zero value of `TradeData`. -/
def emptyTradeData : TradeData :=
  ⟨"", "", "", "", "", "", "", "", "", "", "", "", "", "", "", ""⟩

/-- coalesce mirrors the parser.go helper at the two-argument uses. -/
def coalesce (a b : String) : String :=
  if a ≠ "" then a else b

/-- generateID mirrors parser.go. -/
def generateID (td : TradeData) : String :=
  if td.id ≠ "" then td.id
  else if td.tradeId ≠ "" then td.tradeId
  else td.market ++ "-" ++ td.maker ++ "-" ++ td.timestamp

/-- Normalization of one raw trade object, the loop body of
`convertTrades`. -/
def convertTradeData (now : Int) (td : TradeData) : Trade :=
  { id := generateID td
    marketId := td.market
    assetId := td.assetId
    makerAddress := coalesce td.makerAddress td.maker
    takerAddress := coalesce td.takerAddress td.taker
    side := td.side
    outcome := td.outcome
    size := td.size
    price := parseFloat td.price
    valueUsd := calculateValueUSD td.size (parseFloat td.price)
    timestamp := parseTimestamp now [td.timestamp, td.matchTime]
    tradeId := coalesce td.tradeId td.id
    transactionHash := td.transactionHash }

/-- convertTrades mirrors parser.go: one output Trade per input object. -/
def convertTrades (now : Int) (data : List TradeData) : List Trade :=
  data.map (convertTradeData now)

/-! ### Book events (internal/ingest/parser.go) -/

/-- BookEvent mirrors the orderbook-snapshot schema. -/
structure BookEvent where
  market : String
  assetId : String
  timestamp : String
  hash : String
  eventType : String
  lastTradePrice : String
  bids : List (String × String)
  asks : List (String × String)
deriving DecidableEq, Repr

/-- Zero value of `BookEvent`. -/
def emptyBookEvent : BookEvent :=
  ⟨"", "", "", "", "", "", [], []⟩

/-- The Trade synthesized from a usable book event. -/
def mkBookTrade (now : Int) (event : BookEvent) : Trade :=
  { id := "book-" ++ event.assetId.take 8 ++ "-" ++ event.timestamp
    marketId := event.market
    assetId := event.assetId
    makerAddress := ""
    takerAddress := ""
    side := ""
    outcome := ""
    size := "book_update"
    price := parseFloat event.lastTradePrice
    valueUsd := 0
    timestamp := parseTimestamp now [event.timestamp]
    tradeId := ""
    transactionHash := "" }

/-- Loop body of `parseBookEvents`: skip events without a usable
`last_trade_price`, otherwise synthesize a trade. -/
def bookEventTrade (now : Int) (event : BookEvent) : Option Trade :=
  if event.lastTradePrice = "" ∨ event.lastTradePrice = "0" then none
  else if parseFloat event.lastTradePrice = 0 then none
  else some (mkBookTrade now event)

/-- parseBookEvents mirrors parser.go. -/
def parseBookEvents (now : Int) (events : List BookEvent) : List Trade :=
  events.filterMap (bookEventTrade now)

/-! ### Last-trade-price events (internal/ingest/parser.go) -/

/-- LastTradePriceEvent mirrors the schema. -/
structure LastTradePriceEvent where
  type : String
  assetId : String
  price : String
  size : String
  side : String
  maker : String
  taker : String
deriving DecidableEq, Repr

/-- Trade construction of `parseLastTradePrice` after a successful
unmarshal (the `time.Now()` calls are the `now` argument). -/
def ltpEventTrades (now : Int) (event : LastTradePriceEvent) : List Trade :=
  if event.assetId = "" then []
  else
    [{ id := "ltp-" ++ event.assetId.take 8 ++ "-" ++ toString now
       marketId := ""
       assetId := event.assetId
       makerAddress := event.maker
       takerAddress := event.taker
       side := event.side
       outcome := ""
       size := event.size
       price := parseFloat event.price
       valueUsd := calculateValueUSD event.size (parseFloat event.price)
       timestamp := now
       tradeId := ""
       transactionHash := "" }]

/-! ### REST poller conversion (internal/ingest/trades_api.go) -/

/-- TradeAPIResponse mirrors the CLOB trades endpoint schema. -/
structure TradeAPIResponse where
  id : String
  market : String
  assetId : String
  makerAddress : String
  takerAddress : String
  side : String
  size : String
  price : String
  outcome : String
  timestamp : Int
  transactionHash : String
  tradeId : String
deriving DecidableEq, Repr

/-- convertTrade mirrors trades_api.go: `valueUSD = price * size` over the
defensively parsed strings. -/
def convertTrade (apiTrade : TradeAPIResponse) : Trade :=
  let price := parseFloatSafe apiTrade.price
  let size := parseFloatSafe apiTrade.size
  let valueUSD := price * size
  { id := "api-" ++ apiTrade.id
    marketId := apiTrade.market
    assetId := apiTrade.assetId
    makerAddress := apiTrade.makerAddress
    takerAddress := apiTrade.takerAddress
    side := apiTrade.side
    outcome := apiTrade.outcome
    size := apiTrade.size
    price := price
    valueUsd := valueUSD
    timestamp := apiTrade.timestamp
    tradeId := apiTrade.tradeId
    transactionHash := apiTrade.transactionHash }

/-! ### JSON values and `encoding/json` unmarshalling -/

/-- A JSON value (the payload after lexical JSON parsing). -/
inductive Json where
  | null
  | bool (b : Bool)
  | num (q : ℚ)
  | str (s : String)
  | arr (elems : List Json)
  | obj (fields : List (String × Json))
deriving Repr

/-- Object-field lookup; later duplicate keys win, as in `encoding/json`. -/
def Json.getField (fields : List (String × Json)) (key : String) : Option Json :=
  fields.reverse.lookup key

/-- Unmarshalling a JSON value into a Go `string` field: an absent field
or JSON `null` leaves the zero value, a string is taken, any other type
is an unmarshal error. -/
def decodeStringField (j : Option Json) : Option String :=
  match j with
  | none => some ""
  | some Json.null => some ""
  | some (Json.str s) => some s
  | some _ => none

/-- Unmarshalling one orderbook level `{price, size}`. -/
def decodeLevel (j : Json) : Option (String × String) :=
  match j with
  | Json.null => some ("", "")
  | Json.obj fs => do
    let p ← decodeStringField (Json.getField fs ("price"))
    let s ← decodeStringField (Json.getField fs ("size"))
    pure (p, s)
  | _ => none

/-- Unmarshalling a `bids`/`asks` slice field. -/
def decodeLevels (j : Option Json) : Option (List (String × String)) :=
  match j with
  | none => some []
  | some Json.null => some []
  | some (Json.arr elems) => elems.mapM decodeLevel
  | some _ => none

/-- Unmarshalling into `BookEvent`. -/
def unmarshalBookEvent (j : Json) : Option BookEvent :=
  match j with
  | Json.null => some emptyBookEvent
  | Json.obj fs => do
    let market ← decodeStringField (Json.getField fs ("market"))
    let assetId ← decodeStringField (Json.getField fs ("asset_id"))
    let timestamp ← decodeStringField (Json.getField fs ("timestamp"))
    let hash ← decodeStringField (Json.getField fs ("hash"))
    let eventType ← decodeStringField (Json.getField fs ("event_type"))
    let lastTradePrice ← decodeStringField (Json.getField fs ("last_trade_price"))
    let bids ← decodeLevels (Json.getField fs ("bids"))
    let asks ← decodeLevels (Json.getField fs ("asks"))
    pure ⟨market, assetId, timestamp, hash, eventType, lastTradePrice, bids, asks⟩
  | _ => none

/-- Unmarshalling into `[]BookEvent` (shape 1): JSON `null` gives the nil
slice, an array decodes every element, anything else is an error. -/
def unmarshalBookArray (j : Json) : Option (List BookEvent) :=
  match j with
  | Json.null => some []
  | Json.arr elems => elems.mapM unmarshalBookEvent
  | _ => none

/-- WSMessage mirrors the generic envelope; `data` is a captured raw
value, `none` when the field is absent. -/
structure WSMessage where
  type : String
  channel : String
  data : Option Json
deriving Repr

/-- Unmarshalling into `WSMessage`. -/
def unmarshalWSMessage (j : Json) : Option WSMessage :=
  match j with
  | Json.null => some ⟨"", "", none⟩
  | Json.obj fs => do
    let ty ← decodeStringField (Json.getField fs ("type"))
    let ch ← decodeStringField (Json.getField fs ("channel"))
    pure ⟨ty, ch, Json.getField fs ("data")⟩
  | _ => none

/-- Unmarshalling into `LastTradePriceEvent`. -/
def unmarshalLastTradePriceEvent (j : Json) : Option LastTradePriceEvent :=
  match j with
  | Json.null => some ⟨"", "", "", "", "", "", ""⟩
  | Json.obj fs => do
    let ty ← decodeStringField (Json.getField fs ("type"))
    let assetId ← decodeStringField (Json.getField fs ("asset_id"))
    let price ← decodeStringField (Json.getField fs ("price"))
    let size ← decodeStringField (Json.getField fs ("size"))
    let side ← decodeStringField (Json.getField fs ("side"))
    let maker ← decodeStringField (Json.getField fs ("maker"))
    let taker ← decodeStringField (Json.getField fs ("taker"))
    pure ⟨ty, assetId, price, size, side, maker, taker⟩
  | _ => none

/-- Unmarshalling into `TradeData`. -/
def unmarshalTradeData (j : Json) : Option TradeData :=
  match j with
  | Json.null => some emptyTradeData
  | Json.obj fs => do
    let id ← decodeStringField (Json.getField fs ("id"))
    let tradeId ← decodeStringField (Json.getField fs ("trade_id"))
    let market ← decodeStringField (Json.getField fs ("market"))
    let assetId ← decodeStringField (Json.getField fs ("asset_id"))
    let maker ← decodeStringField (Json.getField fs ("maker"))
    let taker ← decodeStringField (Json.getField fs ("taker"))
    let makerAddress ← decodeStringField (Json.getField fs ("maker_address"))
    let takerAddress ← decodeStringField (Json.getField fs ("taker_address"))
    let side ← decodeStringField (Json.getField fs ("side"))
    let size ← decodeStringField (Json.getField fs ("size"))
    let price ← decodeStringField (Json.getField fs ("price"))
    let outcome ← decodeStringField (Json.getField fs ("outcome"))
    let timestamp ← decodeStringField (Json.getField fs ("timestamp"))
    let transactionHash ← decodeStringField (Json.getField fs ("transaction_hash"))
    let matchTime ← decodeStringField (Json.getField fs ("match_time"))
    let status ← decodeStringField (Json.getField fs ("status"))
    pure ⟨id, tradeId, market, assetId, maker, taker, makerAddress, takerAddress,
      side, size, price, outcome, timestamp, transactionHash, matchTime, status⟩
  | _ => none

/-- Unmarshalling into `[]TradeData`. -/
def unmarshalTradeDataList (j : Json) : Option (List TradeData) :=
  match j with
  | Json.null => some []
  | Json.arr elems => elems.mapM unmarshalTradeData
  | _ => none

/-- TradeEvent mirrors the wrapper with a `trades` array plus an embedded
single-trade form. -/
structure TradeEvent where
  trades : List TradeData
  td : TradeData
deriving Repr

/-- Unmarshalling into `TradeEvent`: the `trades` field decodes as a
slice, the embedded `TradeData` fields decode from the same object. -/
def unmarshalTradeEvent (j : Json) : Option TradeEvent :=
  match j with
  | Json.null => some ⟨[], emptyTradeData⟩
  | Json.obj fs => do
    let trades ← (match Json.getField fs ("trades") with
      | none => some []
      | some Json.null => some []
      | some (Json.arr elems) => elems.mapM unmarshalTradeData
      | some _ => none)
    let td ← unmarshalTradeData j
    pure ⟨trades, td⟩
  | _ => none

/-! ### Message dispatch (internal/ingest/parser.go, ParseMessage) -/

/-- Third fallback inside `parseTrades`: a single raw trade object. -/
def parseTradesSingle (now : Int) (data : Json) : List Trade :=
  match unmarshalTradeData data with
  | some single =>
    if single.id ≠ "" ∨ single.tradeId ≠ "" ∨ single.market ≠ "" then
      convertTrades now [single]
    else []
  | none => []

/-- Second attempt inside `parseTrades`: the `TradeEvent` wrapper, falling
through to the single-object attempt when it yields nothing. -/
def parseTradesEvent (now : Int) (data : Json) : List Trade :=
  match unmarshalTradeEvent data with
  | some event =>
    if event.trades.length > 0 then convertTrades now event.trades
    else if event.td.id ≠ "" ∨ event.td.tradeId ≠ "" then convertTrades now [event.td]
    else parseTradesSingle now data
  | none => parseTradesSingle now data

/-- parseTrades mirrors parser.go; it never reports an error. -/
def parseTrades (now : Int) (data : Option Json) : List Trade :=
  match data with
  | none => []
  | some payload =>
    match unmarshalTradeDataList payload with
    | some (td :: tds) => convertTrades now (td :: tds)
    | _ => parseTradesEvent now payload

/-- parseLastTradePrice mirrors parser.go: `none` is the unmarshal-error
case, otherwise the synthesized trades. -/
def parseLastTradePrice (now : Int) (j : Json) : Option (List Trade) :=
  match unmarshalLastTradePriceEvent j with
  | none => none
  | some event => some (ltpEventTrades now event)

/-- Result triple of `ParseMessage`. -/
structure ParseResult where
  trades : List Trade
  kind : String
  isError : Bool
deriving DecidableEq, Repr

/-- Envelope stage of `ParseMessage` (attempts 3-5). -/
def ParseMessageEnvelope (now : Int) (j : Json) : ParseResult :=
  match unmarshalWSMessage j with
  | none => ⟨[], "", true⟩
  | some msg =>
    if msg.type = "last_trade_price" then
      match parseLastTradePrice now j with
      | none => ⟨[], msg.type, true⟩
      | some trades => ⟨trades, msg.type, false⟩
    else if msg.type = "trade" then
      ⟨parseTrades now msg.data, msg.type, false⟩
    else ⟨[], msg.type, false⟩

/-- Single-book stage of `ParseMessage` (attempt 2). -/
def ParseMessageSingle (now : Int) (j : Json) : ParseResult :=
  match unmarshalBookEvent j with
  | some singleBook =>
    if singleBook.eventType ≠ "" then
      ⟨parseBookEvents now [singleBook], singleBook.eventType, false⟩
    else ParseMessageEnvelope now j
  | none => ParseMessageEnvelope now j

/-- ParseMessage mirrors parser.go: ordered shape attempts with the book
array first. -/
def ParseMessage (now : Int) (j : Json) : ParseResult :=
  match unmarshalBookArray j with
  | some (e :: rest) =>
    if e.eventType = "book" ∨ e.eventType = "price_change" then
      ⟨parseBookEvents now (e :: rest), "book_array", false⟩
    else ParseMessageSingle now j
  | _ => ParseMessageSingle now j

/-! ### Concrete inputs used by witnesses and counterexamples -/

/-- Configuration with the documented default thresholds (window in ms). -/
def defaultConfig : Config := ⟨2000, 50000, 5, 3, 60000⟩

/-- Zero value of `Trade`. -/
def emptyTrade : Trade := ⟨"", "", "", "", "", "", "", "", 0, 0, 0, "", ""⟩

/-- Tracker state holding three timestamps for one address. -/
def burstRecEx : BurstTracker :=
  ⟨fun a => if a = "addr1" then some [1, 2, 50] else none, 60⟩

/-- Tracker state whose single timestamp sits exactly on the cutoff. -/
def burstCleanEx : BurstTracker :=
  ⟨fun a => if a = "addr2" then some [0] else none, 60⟩

/-- Tracker state with one stale address. -/
def burstCleanEx2 : BurstTracker :=
  ⟨fun a => if a = "addr3" then some [5] else none, 60⟩

/-- First trade on asset A at price 1/2. -/
def t1Ex : Trade := { emptyTrade with assetId := "A", price := 1/2 }

/-- Second trade on asset A at price 3/5 (a 20% move). -/
def t2Ex : Trade := { emptyTrade with assetId := "A", price := 3/5 }

/-- A whale-sized trade. -/
def whaleTradeEx : Trade := { emptyTrade with valueUsd := 55000 }

/-- A fresh-insider-sized trade. -/
def freshTradeEx : Trade := { emptyTrade with valueUsd := 5000 }

/-- The USD-value computation as the claim words it, for comparison with
`calculateValueUSD`: parse the size (0 on failure), rescale by 10^-6 when
the parsed MAGNITUDE exceeds 10^6, return the size as the value. -/
def specComputeValueUsd (sizeStr : String) (price : ℚ) : ℚ :=
  let size := parseFloat sizeStr
  if 1000000 < |size| then size * (1 / 1000000) else size

/-- Raw trade whose price string is unparseable but whose size parses. -/
def tdBadPriceEx : TradeData :=
  { emptyTradeData with size := "100", price := "x" }

/-- Raw trade with a negative size string. -/
def tdNegSizeEx : TradeData :=
  { emptyTradeData with size := "-100", price := "0.5" }

/-- A well-formed REST API trade. -/
def apiEx : TradeAPIResponse :=
  ⟨"t1", "m", "a", "maker", "taker", "BUY", "100", "0.5", "YES", 0, "", "t1"⟩

/-- A well-formed last-trade-price event. -/
def ltpEvEx : LastTradePriceEvent :=
  ⟨"last_trade_price", "A1", "0.5", "100", "", "", ""⟩

/-- Envelope of type last_trade_price whose payload fails the event
unmarshal (numeric asset_id). -/
def ltpJsonBad : Json :=
  Json.obj [("type", Json.str ("last_trade_price")), ("asset_id", Json.num 123)]

/-- Valid envelope matching none of the known shapes. -/
def pongJson : Json :=
  Json.obj [("type", Json.str ("pong"))]

/-- A book event carrying last trade price 0.058. -/
def bookEvEx : BookEvent :=
  { emptyBookEvent with assetId := "A1", eventType := "book", lastTradePrice := "0.058" }

/-- The shape-1 payload holding exactly `bookEvEx`. -/
def bookJsonEx : Json :=
  Json.arr [Json.obj [("event_type", Json.str ("book")), ("asset_id", Json.str ("A1")),
    ("last_trade_price", Json.str ("0.058"))]]

/-! ## Theorems -/

/-! ### Numeric-parsing evaluation lemmas -/

/-- The string 100 parses to 100. -/
theorem parseFloat_100 : parseFloat ("100") = 100 := by
  have h : parseFloat ("100") = (1 : ℚ) * ((100 : Nat) : ℚ) := rfl
  rw [h]; norm_num

/-- The string -100 parses to -100. -/
theorem parseFloat_neg100 : parseFloat ("-100") = -100 := by
  have h : parseFloat ("-100") = (-1 : ℚ) * ((100 : Nat) : ℚ) := rfl
  rw [h]; norm_num

/-- The string -2000000 parses to -2000000. -/
theorem parseFloat_neg2e6 : parseFloat ("-2000000") = -2000000 := by
  have h : parseFloat ("-2000000") = (-1 : ℚ) * ((2000000 : Nat) : ℚ) := rfl
  rw [h]; norm_num

/-- The string 0.058 parses to 29/500. -/
theorem parseFloat_0058 : parseFloat ("0.058") = 29 / 500 := by
  have h : parseFloat ("0.058") =
      (1 : ℚ) * (((0 : Nat) : ℚ) + ((58 : Nat) : ℚ) / (10 ^ (3 : Nat))) := rfl
  rw [h]; norm_num

/-- The string 0 parses to 0. -/
theorem parseFloat_zero_str : parseFloat ("0") = 0 := by
  have h : parseFloat ("0") = (1 : ℚ) * (((0 : Nat)) : ℚ) := rfl
  rw [h]; norm_num

/-! ### Burst tracker lemmas -/

/-- On a chronologically sorted slice, the pruning loop's index marks off
exactly the entries at or before the cutoff. -/
theorem drop_firstFreshIdx (cutoff : Int) (ts : List Int)
    (h : ts.Sorted (· ≤ ·)) :
    ts.drop (firstFreshIdx cutoff ts) = ts.filter (fun t => decide (cutoff < t)) := by
  induction ts with
  | nil => rfl
  | cons t rest ih =>
    rw [List.sorted_cons] at h
    by_cases hc : cutoff < t
    · have hrest : rest.filter (fun x => decide (cutoff < x)) = rest :=
        List.filter_eq_self.mpr fun a ha => by
          simpa using lt_of_lt_of_le hc (h.1 a ha)
      simp [firstFreshIdx, hc, List.filter_cons, hrest]
    · have hidx : firstFreshIdx cutoff (t :: rest) = firstFreshIdx cutoff rest + 1 := by
        simp [firstFreshIdx, hc]
      rw [hidx, List.drop_succ_cons, ih h.2, List.filter_cons]
      simp [hc]

/-- When every entry is at or before the cutoff, the loop index reaches the
length of the slice. -/
theorem firstFreshIdx_all_le (cutoff : Int) (ts : List Int)
    (h : ∀ t ∈ ts, t ≤ cutoff) :
    firstFreshIdx cutoff ts = ts.length := by
  induction ts with
  | nil => rfl
  | cons t rest ih =>
    have ht : ¬ cutoff < t := not_lt.mpr (h t (by simp))
    simp [firstFreshIdx, ht, ih fun a ha => h a (by simp [ha])]

/-- Record preserves chronological sortedness of the stored slice when
the clock reading is at or after every stored entry, so the sortedness
hypothesis of the record contract holds in every reachable state. -/
theorem record_sorted (b : BurstTracker) (address : String) (now : Int)
    (hsorted : ((b.trades address).getD []).Sorted (· ≤ ·))
    (hle : ∀ t ∈ (b.trades address).getD [], t ≤ now) :
    (((b.Record address now).2.trades address).getD []).Sorted (· ≤ ·) := by
  have hdrop := drop_firstFreshIdx (now - b.window) ((b.trades address).getD []) hsorted
  have hstore : ((b.Record address now).2.trades address).getD [] =
      ((b.trades address).getD []).filter (fun t => decide (now - b.window < t)) ++ [now] := by
    simp [BurstTracker.Record, hdrop]
  rw [hstore]
  refine List.pairwise_append.mpr
    ⟨List.Sorted.filter _ hsorted, List.sorted_singleton now, ?_⟩
  intro a ha c hc
  rw [List.mem_singleton] at hc
  subst hc
  exact hle a (List.mem_of_mem_filter ha)

/-- C3: `record` first discards every stored entry at or before
`now - window`, appends the current time, stores the result, and returns
its length; when every previous entry is at or before the cutoff it
returns 1.  The sortedness hypothesis is the invariant of every reachable
tracker state (`Record` appends monotone `time.Now()` readings). -/
theorem record_spec (b : BurstTracker) (address : String) (now : Int)
    (hsorted : ((b.trades address).getD []).Sorted (· ≤ ·)) :
    (b.Record address now).1 =
      (((b.trades address).getD []).filter
        (fun t => decide (now - b.window < t))).length + 1 ∧
    (b.Record address now).2.trades address =
      some ((((b.trades address).getD []).filter
        (fun t => decide (now - b.window < t))) ++ [now]) ∧
    ((∀ t ∈ (b.trades address).getD [], t ≤ now - b.window) →
      (b.Record address now).1 = 1) := by
  have hdrop := drop_firstFreshIdx (now - b.window) ((b.trades address).getD []) hsorted
  refine ⟨?_, ?_, ?_⟩
  · simp [BurstTracker.Record, hdrop]
  · simp [BurstTracker.Record, hdrop]
  · intro hall
    have hidx := firstFreshIdx_all_le (now - b.window) ((b.trades address).getD []) hall
    simp [BurstTracker.Record, hidx]

/-- Witness for `record_spec`: timestamps 1 and 2 fall out of the window,
50 stays, the fresh entry joins it, so the count is 2. -/
theorem record_spec_witness :
    ((burstRecEx.trades ("addr1")).getD []).Sorted (· ≤ ·) ∧
    (burstRecEx.Record ("addr1") 100).1 = 2 := by
  refine ⟨by decide, ?_⟩
  exact ((record_spec burstRecEx ("addr1") 100 (by decide)).1).trans (by decide)

/-- The last element of a non-empty list agrees with `getLastD 0`. -/
theorem getLast?_eq_getLastD_of_cons (x : Int) (xs : List Int) :
    (x :: xs).getLast? = some ((x :: xs).getLastD 0) := by
  induction xs generalizing x with
  | nil => rfl
  | cons y ys ih => rw [List.getLast?_cons_cons, ih y]; rfl

/-- C9 counterexample: a key whose most recent timestamp equals
`now - window` exactly is deleted by `Cleanup`, although it is not
strictly before the cutoff as the claim requires. -/
theorem cleanup_strict_counterexample :
    burstCleanEx.trades ("addr2") = some [0] ∧
    ¬ ((0 : Int) < 60 - burstCleanEx.window) ∧
    (burstCleanEx.Cleanup 60).trades ("addr2") = none := by
  refine ⟨by decide, by decide, by decide⟩

/-- C9 amended: `cleanup` deletes exactly the keys whose slice is empty or
whose most recent timestamp is at or before `now - window` (not strictly
before), and leaves every surviving key's slice unchanged. -/
theorem cleanup_spec (b : BurstTracker) (now : Int) (addr : String) :
    ((b.Cleanup now).trades addr = none ↔
      b.trades addr = none ∨
      ∃ ts, b.trades addr = some ts ∧
        (ts = [] ∨ ∃ l, ts.getLast? = some l ∧ l ≤ now - b.window)) ∧
    (∀ ts, b.trades addr = some ts →
      (b.Cleanup now).trades addr = none ∨ (b.Cleanup now).trades addr = some ts) := by
  constructor
  · cases h : b.trades addr with
    | none => simp [BurstTracker.Cleanup, h]
    | some ts =>
      cases ts with
      | nil => simp [BurstTracker.Cleanup, h]
      | cons x xs =>
        by_cases hc : now - b.window < (x :: xs).getLastD 0
        · have hcond : ¬ ((x :: xs).length = 0 ∨ ¬ now - b.window < (x :: xs).getLastD 0) := by
            push_neg
            exact ⟨by simp, hc⟩
          simp only [BurstTracker.Cleanup, h]
          rw [if_neg hcond]
          constructor
          · intro hfalse
            exact (Option.some_ne_none _ hfalse).elim
          · rintro (hn | ⟨ts', hts', (hnil | ⟨l, hl, hle⟩)⟩)
            · cases hn
            · cases hts'; cases hnil
            · cases hts'
              have hld : l = (x :: xs).getLastD 0 := by
                have hl' := hl
                rw [getLast?_eq_getLastD_of_cons] at hl'
                exact (Option.some.inj hl').symm
              subst hld
              exact absurd hle (not_le.mpr hc)
        · simp only [BurstTracker.Cleanup, h]
          rw [if_pos (Or.inr hc)]
          constructor
          · intro _
            exact Or.inr ⟨x :: xs, rfl,
              Or.inr ⟨(x :: xs).getLastD 0, getLast?_eq_getLastD_of_cons x xs,
                not_lt.mp hc⟩⟩
          · intro _; rfl
  · intro ts hts
    simp only [BurstTracker.Cleanup, hts]
    by_cases hd : ts.length = 0 ∨ ¬ now - b.window < ts.getLastD 0
    · exact Or.inl (by rw [if_pos hd])
    · exact Or.inr (by rw [if_neg hd])

/-- Witness for `cleanup_spec`: a key whose only timestamp is stale is
deleted. -/
theorem cleanup_spec_witness :
    burstCleanEx2.trades ("addr3") = some [5] ∧
    (burstCleanEx2.Cleanup 100).trades ("addr3") = none := by
  refine ⟨by decide, ?_⟩
  exact (cleanup_spec burstCleanEx2 100 ("addr3")).1.mpr
    (Or.inr ⟨[5], by decide, Or.inr ⟨5, by decide, by decide⟩⟩)

/-! ### Detector lemmas -/

/-- The suspect list of `Detect` is the concatenation of the four checks'
outputs in source order. -/
theorem detect_fst (d : Detector) (t : Trade) (nonce now : Int) :
    (Detect d t nonce now).1 =
      shockCheck t nonce (d.lastPrices t.assetId) ++ whaleCheck d.cfg t nonce ++
      freshInsiderCheck d.cfg t nonce ++
      (if t.makerAddress ≠ "" then
        panicBurstCheck d.cfg t nonce (d.burstTracker.Record t.makerAddress now).1
      else []) := by
  by_cases h : t.makerAddress ≠ "" <;> simp [Detect, h]

/-- Detect always overwrites the last-price entry of the trade's asset and
touches no other entry. -/
theorem detect_lastPrices (d : Detector) (t : Trade) (nonce now : Int) (a : String) :
    (Detect d t nonce now).2.lastPrices a =
      if a = t.assetId then some t.price else d.lastPrices a := by
  by_cases h : t.makerAddress ≠ "" <;> simp [Detect, h]

/-- A sequence of detect calls never touching asset `a` leaves its
last-price entry absent. -/
theorem detectMany_lastPrices_none (a : String) :
    ∀ (calls : List (Trade × Int × Int)) (d : Detector),
      (∀ c ∈ calls, c.1.assetId ≠ a) → d.lastPrices a = none →
      (DetectMany d calls).lastPrices a = none := by
  intro calls
  induction calls with
  | nil => intro d _ hnone; exact hnone
  | cons c rest ih =>
    intro d hcalls hnone
    refine ih _ (fun x hx => hcalls x (by simp [hx])) ?_
    rw [detect_lastPrices]
    rw [if_neg (by simpa using (hcalls c (by simp)).symm), hnone]

/-- The price-shock check emits nothing or one PRICE_SHOCK suspect
wrapping the trade and nonce. -/
theorem shockCheck_shape (t : Trade) (nonce : Int) (lp : Option ℚ) :
    shockCheck t nonce lp = [] ∨
    ∃ m, shockCheck t nonce lp = [⟨t, "PRICE_SHOCK", nonce, m⟩] := by
  unfold shockCheck
  rcases lp with _ | p
  · exact Or.inl rfl
  · by_cases h1 : 0 < p
    · by_cases h2 : (0.05 : ℚ) ≤ |t.price - p| / p
      · exact Or.inr ⟨[("prev_price", p), ("new_price", t.price),
          ("pct_change", |t.price - p| / p)], by simp [h1, h2]⟩
      · exact Or.inl (by simp [h1, h2])
    · exact Or.inl (by simp [h1])

/-- The whale check emits nothing or one WHALE suspect. -/
theorem whaleCheck_shape (cfg : Config) (t : Trade) (nonce : Int) :
    whaleCheck cfg t nonce = [] ∨ whaleCheck cfg t nonce = [⟨t, "WHALE", nonce, []⟩] := by
  unfold whaleCheck
  by_cases h : cfg.whaleValueUSD ≤ t.valueUsd
  · exact Or.inr (by simp [h])
  · exact Or.inl (by simp [h])

/-- The fresh-insider check emits nothing or one FRESH_INSIDER suspect. -/
theorem freshCheck_shape (cfg : Config) (t : Trade) (nonce : Int) :
    freshInsiderCheck cfg t nonce = [] ∨
    freshInsiderCheck cfg t nonce = [⟨t, "FRESH_INSIDER", nonce, []⟩] := by
  unfold freshInsiderCheck
  by_cases h : 0 ≤ nonce ∧ cfg.minValueUSD ≤ t.valueUsd ∧ nonce ≤ cfg.freshWalletNonce
  · exact Or.inr (by simp [h])
  · exact Or.inl (by simp [h])

/-- The panic-burst check emits nothing or one PANIC_BURST suspect. -/
theorem burstCheck_shape (cfg : Config) (t : Trade) (nonce : Int) (count : Nat) :
    panicBurstCheck cfg t nonce count = [] ∨
    panicBurstCheck cfg t nonce count = [⟨t, "PANIC_BURST", nonce, []⟩] := by
  unfold panicBurstCheck
  by_cases h : cfg.burstCount ≤ (count : Int)
  · exact Or.inr (by simp [h])
  · exact Or.inl (by simp [h])

/-- Filtering the shock output for another signal type gives nothing. -/
theorem shockCheck_filter_ne (t : Trade) (nonce : Int) (lp : Option ℚ) (ty : String)
    (h : ty ≠ "PRICE_SHOCK") :
    (shockCheck t nonce lp).filter (fun sus => sus.signalType == ty) = [] := by
  rcases shockCheck_shape t nonce lp with h1 | ⟨m, h1⟩ <;>
    simp [h1, Ne.symm h]

/-- Filtering the whale output for another signal type gives nothing. -/
theorem whaleCheck_filter_ne (cfg : Config) (t : Trade) (nonce : Int) (ty : String)
    (h : ty ≠ "WHALE") :
    (whaleCheck cfg t nonce).filter (fun sus => sus.signalType == ty) = [] := by
  rcases whaleCheck_shape cfg t nonce with h1 | h1 <;>
    simp [h1, Ne.symm h]

/-- Filtering the fresh-insider output for another signal type gives
nothing. -/
theorem freshCheck_filter_ne (cfg : Config) (t : Trade) (nonce : Int) (ty : String)
    (h : ty ≠ "FRESH_INSIDER") :
    (freshInsiderCheck cfg t nonce).filter (fun sus => sus.signalType == ty) = [] := by
  rcases freshCheck_shape cfg t nonce with h1 | h1 <;>
    simp [h1, Ne.symm h]

/-- Filtering the panic-burst output for another signal type gives
nothing. -/
theorem burstCheck_filter_ne (cfg : Config) (t : Trade) (nonce : Int) (count : Nat)
    (ty : String) (h : ty ≠ "PANIC_BURST") :
    (panicBurstCheck cfg t nonce count).filter (fun sus => sus.signalType == ty) = [] := by
  rcases burstCheck_shape cfg t nonce count with h1 | h1 <;>
    simp [h1, Ne.symm h]

/-- Filtering the shock output for PRICE_SHOCK keeps it whole. -/
theorem shockCheck_filter_self (t : Trade) (nonce : Int) (lp : Option ℚ) :
    (shockCheck t nonce lp).filter (fun sus => sus.signalType == "PRICE_SHOCK") =
      shockCheck t nonce lp := by
  rcases shockCheck_shape t nonce lp with h1 | ⟨m, h1⟩ <;> simp [h1]

/-- Filter of the whole detect output by signal type, part by part. -/
theorem detect_filter (d : Detector) (t : Trade) (nonce now : Int) (ty : String) :
    (Detect d t nonce now).1.filter (fun sus => sus.signalType == ty) =
      (shockCheck t nonce (d.lastPrices t.assetId)).filter
        (fun sus => sus.signalType == ty) ++
      (whaleCheck d.cfg t nonce).filter (fun sus => sus.signalType == ty) ++
      (freshInsiderCheck d.cfg t nonce).filter (fun sus => sus.signalType == ty) ++
      (if t.makerAddress ≠ "" then
        (panicBurstCheck d.cfg t nonce (d.burstTracker.Record t.makerAddress now).1).filter
          (fun sus => sus.signalType == ty)
      else []) := by
  rw [detect_fst, List.filter_append, List.filter_append, List.filter_append]
  by_cases h : t.makerAddress ≠ "" <;> simp [h]

/-! ### Detector claim theorems -/

/-- C4: every trade at or above the whale threshold yields exactly one
WHALE suspect, whatever the other fields and the nonce are. -/
theorem whale_spec (d : Detector) (t : Trade) (nonce now : Int)
    (h : d.cfg.whaleValueUSD ≤ t.valueUsd) :
    ((Detect d t nonce now).1.filter
      (fun sus => sus.signalType == "WHALE")).length = 1 := by
  rw [detect_filter, shockCheck_filter_ne _ _ _ _ (by decide),
    freshCheck_filter_ne _ _ _ _ (by decide)]
  have hb : (if t.makerAddress ≠ "" then
      (panicBurstCheck d.cfg t nonce (d.burstTracker.Record t.makerAddress now).1).filter
        (fun sus => sus.signalType == "WHALE")
    else []) = [] := by
    by_cases hm : t.makerAddress ≠ ""
    · rw [if_pos hm]
      exact burstCheck_filter_ne d.cfg t nonce _ "WHALE" (by decide)
    · rw [if_neg hm]
  rw [hb]
  simp [whaleCheck, h]

/-- Witness for `whale_spec`: a 55000 USD trade with the default 50000
threshold. -/
theorem whale_spec_witness :
    (NewDetector defaultConfig).cfg.whaleValueUSD ≤ whaleTradeEx.valueUsd ∧
    ((Detect (NewDetector defaultConfig) whaleTradeEx (-1) 0).1.filter
      (fun sus => sus.signalType == "WHALE")).length = 1 := by
  exact ⟨by decide, whale_spec (NewDetector defaultConfig) whaleTradeEx (-1) 0 (by decide)⟩

/-- C5: the FRESH_INSIDER suspect (carrying the call's nonce) is emitted
exactly when the nonce is enriched (≥ 0), the value reaches the minimum
threshold, and the nonce is at most the fresh-wallet threshold; a call
with nonce −1 never emits one. -/
theorem fresh_insider_spec (d : Detector) (t : Trade) (nonce now : Int) :
    ((Detect d t nonce now).1.filter
        (fun sus => sus.signalType == "FRESH_INSIDER")) =
      (if 0 ≤ nonce ∧ d.cfg.minValueUSD ≤ t.valueUsd ∧
          nonce ≤ d.cfg.freshWalletNonce then
        [⟨t, "FRESH_INSIDER", nonce, []⟩]
      else []) ∧
    (nonce = -1 →
      ((Detect d t nonce now).1.filter
        (fun sus => sus.signalType == "FRESH_INSIDER")) = []) := by
  have hmain : ((Detect d t nonce now).1.filter
      (fun sus => sus.signalType == "FRESH_INSIDER")) =
      (if 0 ≤ nonce ∧ d.cfg.minValueUSD ≤ t.valueUsd ∧
          nonce ≤ d.cfg.freshWalletNonce then
        [⟨t, "FRESH_INSIDER", nonce, []⟩]
      else []) := by
    rw [detect_filter, shockCheck_filter_ne _ _ _ _ (by decide),
      whaleCheck_filter_ne _ _ _ _ (by decide)]
    have hb : (if t.makerAddress ≠ "" then
        (panicBurstCheck d.cfg t nonce (d.burstTracker.Record t.makerAddress now).1).filter
          (fun sus => sus.signalType == "FRESH_INSIDER")
      else []) = [] := by
      by_cases hm : t.makerAddress ≠ ""
      · rw [if_pos hm]
        exact burstCheck_filter_ne d.cfg t nonce _ "FRESH_INSIDER" (by decide)
      · rw [if_neg hm]
    rw [hb]
    by_cases hcond : 0 ≤ nonce ∧ d.cfg.minValueUSD ≤ t.valueUsd ∧
        nonce ≤ d.cfg.freshWalletNonce <;>
      simp [freshInsiderCheck, hcond]
  refine ⟨hmain, fun hneg => ?_⟩
  rw [hmain, if_neg ?_]
  rintro ⟨h0, -⟩
  rw [hneg] at h0
  exact absurd h0 (by decide)

/-- Witness for `fresh_insider_spec`: a 5000 USD trade with nonce 2 emits
the suspect; the same trade with nonce −1 emits none. -/
theorem fresh_insider_spec_witness :
    ((Detect (NewDetector defaultConfig) freshTradeEx 2 0).1.filter
        (fun sus => sus.signalType == "FRESH_INSIDER")) =
      [⟨freshTradeEx, "FRESH_INSIDER", 2, []⟩] ∧
    ((Detect (NewDetector defaultConfig) freshTradeEx (-1) 0).1.filter
        (fun sus => sus.signalType == "FRESH_INSIDER")) = [] := by
  constructor
  · rw [(fresh_insider_spec (NewDetector defaultConfig) freshTradeEx 2 0).1]
    rw [if_pos (by decide)]
  · exact (fresh_insider_spec (NewDetector defaultConfig) freshTradeEx (-1) 0).2 rfl

/-- C10: the suspect list of one detect call carries at most one suspect
per signal type, in the fixed source order, has length at most 4, and
every suspect wraps exactly the input trade and the given nonce. -/
theorem detect_shape (d : Detector) (t : Trade) (nonce now : Int) :
    ((Detect d t nonce now).1.map Suspect.signalType).Sublist
      ["PRICE_SHOCK", "WHALE", "FRESH_INSIDER", "PANIC_BURST"] ∧
    ((Detect d t nonce now).1.map Suspect.signalType).Nodup ∧
    (Detect d t nonce now).1.length ≤ 4 ∧
    ∀ sus ∈ (Detect d t nonce now).1, sus.trade = t ∧ sus.nonce = nonce := by
  have hshock : ((shockCheck t nonce (d.lastPrices t.assetId)).map
      Suspect.signalType).Sublist ["PRICE_SHOCK"] := by
    rcases shockCheck_shape t nonce (d.lastPrices t.assetId) with h1 | ⟨m, h1⟩ <;>
      rw [h1] <;> simp
  have hwhale : ((whaleCheck d.cfg t nonce).map Suspect.signalType).Sublist ["WHALE"] := by
    rcases whaleCheck_shape d.cfg t nonce with h1 | h1 <;> rw [h1] <;> simp
  have hfresh : ((freshInsiderCheck d.cfg t nonce).map
      Suspect.signalType).Sublist ["FRESH_INSIDER"] := by
    rcases freshCheck_shape d.cfg t nonce with h1 | h1 <;> rw [h1] <;> simp
  have hburst : (((if t.makerAddress ≠ "" then
      panicBurstCheck d.cfg t nonce (d.burstTracker.Record t.makerAddress now).1
    else []) : List Suspect).map Suspect.signalType).Sublist ["PANIC_BURST"] := by
    by_cases hm : t.makerAddress ≠ ""
    · rw [if_pos hm]
      rcases burstCheck_shape d.cfg t nonce
          (d.burstTracker.Record t.makerAddress now).1 with h1 | h1 <;>
        rw [h1] <;> simp
    · rw [if_neg hm]; simp
  have hs : ((Detect d t nonce now).1.map Suspect.signalType).Sublist
      ["PRICE_SHOCK", "WHALE", "FRESH_INSIDER", "PANIC_BURST"] := by
    rw [detect_fst, List.map_append, List.map_append, List.map_append]
    simpa using ((hshock.append hwhale).append hfresh).append hburst
  refine ⟨hs, List.Nodup.sublist hs (by decide), ?_, ?_⟩
  · have hl := hs.length_le
    simpa using hl
  · intro sus hsus
    rw [detect_fst] at hsus
    simp only [List.mem_append] at hsus
    rcases hsus with ((hs1 | hs2) | hs3) | hs4
    · rcases shockCheck_shape t nonce (d.lastPrices t.assetId) with h1 | ⟨m, h1⟩ <;>
        rw [h1] at hs1 <;> simp at hs1
      subst hs1; exact ⟨rfl, rfl⟩
    · rcases whaleCheck_shape d.cfg t nonce with h1 | h1 <;>
        rw [h1] at hs2 <;> simp at hs2
      subst hs2; exact ⟨rfl, rfl⟩
    · rcases freshCheck_shape d.cfg t nonce with h1 | h1 <;>
        rw [h1] at hs3 <;> simp at hs3
      subst hs3; exact ⟨rfl, rfl⟩
    · by_cases hm : t.makerAddress ≠ ""
      · rw [if_pos hm] at hs4
        rcases burstCheck_shape d.cfg t nonce
            (d.burstTracker.Record t.makerAddress now).1 with h1 | h1 <;>
          rw [h1] at hs4 <;> simp at hs4
        subst hs4; exact ⟨rfl, rfl⟩
      · rw [if_neg hm] at hs4
        simp at hs4

/-- Witness for `detect_shape` at a concrete whale trade. -/
theorem detect_shape_witness :
    ((Detect (NewDetector defaultConfig) whaleTradeEx (-1) 0).1.map
      Suspect.signalType).Sublist
      ["PRICE_SHOCK", "WHALE", "FRESH_INSIDER", "PANIC_BURST"] ∧
    (Detect (NewDetector defaultConfig) whaleTradeEx (-1) 0).1.length ≤ 4 ∧
    ∀ sus ∈ (Detect (NewDetector defaultConfig) whaleTradeEx (-1) 0).1,
      sus.trade = whaleTradeEx ∧ sus.nonce = -1 := by
  have h := detect_shape (NewDetector defaultConfig) whaleTradeEx (-1) 0
  exact ⟨h.1, h.2.2.1, h.2.2.2⟩

/-- C2: after a call on a trade with price p1 > 0 on an asset, the next
call on the same asset with price p2 emits a PRICE_SHOCK suspect exactly
when |p2 − p1| / p1 ≥ 0.05, carrying previous price, new price and
percentage change in its metadata; and a call on an asset never seen by
any earlier call emits no PRICE_SHOCK suspect. -/
theorem price_shock_spec (cfg : Config) (d : Detector) (t1 t2 : Trade)
    (n1 n2 now1 now2 : Int) (calls : List (Trade × Int × Int))
    (hasset : t1.assetId = t2.assetId) (hp : 0 < t1.price)
    (hcalls : ∀ c ∈ calls, c.1.assetId ≠ t2.assetId) :
    ((Detect (Detect d t1 n1 now1).2 t2 n2 now2).1.filter
        (fun sus => sus.signalType == "PRICE_SHOCK") =
      if (0.05 : ℚ) ≤ |t2.price - t1.price| / t1.price then
        [⟨t2, "PRICE_SHOCK", n2,
          [("prev_price", t1.price), ("new_price", t2.price),
            ("pct_change", |t2.price - t1.price| / t1.price)]⟩]
      else []) ∧
    ((Detect (DetectMany (NewDetector cfg) calls) t2 n2 now2).1.filter
        (fun sus => sus.signalType == "PRICE_SHOCK") = []) := by
  have hbAll : ∀ (d' : Detector), (if t2.makerAddress ≠ "" then
      (panicBurstCheck d'.cfg t2 n2
        (d'.burstTracker.Record t2.makerAddress now2).1).filter
        (fun sus => sus.signalType == "PRICE_SHOCK")
    else []) = [] := by
    intro d'
    by_cases hm : t2.makerAddress ≠ ""
    · rw [if_pos hm]
      exact burstCheck_filter_ne d'.cfg t2 n2 _ "PRICE_SHOCK" (by decide)
    · rw [if_neg hm]
  constructor
  · have hlp : (Detect d t1 n1 now1).2.lastPrices t2.assetId = some t1.price := by
      rw [detect_lastPrices, if_pos hasset.symm]
    rw [detect_filter, whaleCheck_filter_ne _ _ _ _ (by decide),
      freshCheck_filter_ne _ _ _ _ (by decide), hbAll, shockCheck_filter_self, hlp]
    simp only [shockCheck, List.append_nil]
    rw [if_pos hp]
  · have hnone : (DetectMany (NewDetector cfg) calls).lastPrices t2.assetId = none :=
      detectMany_lastPrices_none t2.assetId calls (NewDetector cfg) hcalls rfl
    rw [detect_filter, whaleCheck_filter_ne _ _ _ _ (by decide),
      freshCheck_filter_ne _ _ _ _ (by decide), hbAll, shockCheck_filter_self, hnone]
    simp [shockCheck]

/-- Witness for `price_shock_spec`: prices 1/2 then 3/5 on asset A are a
20% move, so the second call emits the PRICE_SHOCK suspect; a first-ever
call on asset A emits none. -/
theorem price_shock_spec_witness :
    t1Ex.assetId = t2Ex.assetId ∧ 0 < t1Ex.price ∧
    ((Detect (Detect (NewDetector defaultConfig) t1Ex (-1) 0).2 t2Ex (-1) 5).1.filter
        (fun sus => sus.signalType == "PRICE_SHOCK") =
      [⟨t2Ex, "PRICE_SHOCK", -1,
        [("prev_price", t1Ex.price), ("new_price", t2Ex.price), ("pct_change", 1/5)]⟩]) ∧
    ((Detect (DetectMany (NewDetector defaultConfig) []) t2Ex (-1) 5).1.filter
        (fun sus => sus.signalType == "PRICE_SHOCK") = []) := by
  have h := price_shock_spec defaultConfig (NewDetector defaultConfig) t1Ex t2Ex
    (-1) (-1) 0 5 [] rfl (by norm_num [t1Ex, emptyTrade]) (by intro c hc; cases hc)
  refine ⟨rfl, by norm_num [t1Ex, emptyTrade], ?_, h.2⟩
  rw [h.1]
  norm_num [t1Ex, t2Ex, emptyTrade, abs_of_nonneg]

/-! ### USD-value heuristic (C6) -/

/-- C6 counterexample: for size string -2000000 the parsed magnitude
exceeds 10^6, so the claim's magnitude-based reading rescales to −2, but
the code's signed comparison skips the rescale and returns −2000000. -/
theorem value_heuristic_counterexample :
    calculateValueUSD ("-2000000") 0 = -2000000 ∧
    specComputeValueUsd ("-2000000") 0 = -2 ∧
    (-2000000 : ℚ) ≠ -2 := by
  have habs : |(-2000000 : ℚ)| = 2000000 := by
    rw [abs_of_nonpos] <;> norm_num
  refine ⟨?_, ?_, by norm_num⟩
  · norm_num [calculateValueUSD, parseFloat_neg2e6]
  · norm_num [specComputeValueUsd, parseFloat_neg2e6, habs]

/-- C6 amended: the value heuristic compares the parsed size to 10^6 with
a signed comparison (not by magnitude); with this reading the explicit
zero short-circuit is redundant and the function is exactly
parse-then-conditionally-rescale. -/
theorem value_heuristic_signed_spec (sizeStr : String) (price : ℚ) :
    calculateValueUSD sizeStr price =
      (if 1000000 < parseFloat sizeStr then parseFloat sizeStr * (1 / 1000000)
       else parseFloat sizeStr) := by
  unfold calculateValueUSD
  by_cases h0 : parseFloat sizeStr = 0
  · rw [h0]
    norm_num
  · by_cases h1 : 1000000 < parseFloat sizeStr
    · rw [if_neg h0, if_pos h1, if_pos h1, div_eq_mul_one_div]
    · rw [if_neg h0, if_neg h1, if_neg h1]

/-! ### Value invariant of the ingestion layer (C1) -/

/-- C1 counterexample: the websocket conversion gives a trade with an
unparseable price string the full size value 100 (not 0), and gives a
trade with a negative size string a negative value. -/
theorem value_invariant_counterexample :
    parseDecimal ("x") = none ∧
    (convertTrades 0 [tdBadPriceEx]).map Trade.valueUsd = [100] ∧
    (100 : ℚ) ≠ 0 ∧
    (convertTrades 0 [tdNegSizeEx]).map Trade.valueUsd = [-100] ∧
    (-100 : ℚ) < 0 := by
  refine ⟨rfl, ?_, by norm_num, ?_, by norm_num⟩
  · have hv : calculateValueUSD ("100") (parseFloat ("x")) = 100 := by
      norm_num [calculateValueUSD, parseFloat_100]
    simp [convertTrades, convertTradeData, tdBadPriceEx, emptyTradeData, hv]
  · have hv : calculateValueUSD ("-100") (parseFloat ("0.5")) = -100 := by
      norm_num [calculateValueUSD, parseFloat_neg100]
    simp [convertTrades, convertTradeData, tdNegSizeEx, emptyTradeData, hv]

/-- C1 amended: no ingestion path ever drops a trade; the websocket paths
compute the value from the size string alone, so an unparseable size gives
value 0 (an unparseable price does not force 0) and the value is
non-negative whenever the parsed size is; the REST path multiplies the two
parsed strings, so a parse failure on either side gives 0 and non-negative
parses give a non-negative value; book-event trades always carry value 0. -/
theorem value_invariant_spec (sizeStr : String) (price : ℚ) (now : Int)
    (td : TradeData) (api : TradeAPIResponse) (evs : List BookEvent)
    (ev : LastTradePriceEvent) :
    (0 ≤ parseFloat sizeStr → 0 ≤ calculateValueUSD sizeStr price) ∧
    (parseDecimal sizeStr = none → calculateValueUSD sizeStr price = 0) ∧
    (∀ tds : List TradeData, (convertTrades now tds).length = tds.length) ∧
    (0 ≤ parseFloat td.size → 0 ≤ (convertTradeData now td).valueUsd) ∧
    (parseDecimal td.size = none → (convertTradeData now td).valueUsd = 0) ∧
    (0 ≤ parseFloatSafe api.price ∧ 0 ≤ parseFloatSafe api.size →
      0 ≤ (convertTrade api).valueUsd) ∧
    ((parseDecimalLeading api.price = none ∨ parseDecimalLeading api.size = none) →
      (convertTrade api).valueUsd = 0) ∧
    (∀ tr ∈ parseBookEvents now evs, tr.valueUsd = 0) ∧
    (0 ≤ parseFloat ev.size → ∀ tr ∈ ltpEventTrades now ev, 0 ≤ tr.valueUsd) := by
  have hnn : ∀ (s : String) (p : ℚ), 0 ≤ parseFloat s → 0 ≤ calculateValueUSD s p := by
    intro s p h
    unfold calculateValueUSD
    by_cases h0 : parseFloat s = 0
    · rw [if_pos h0]
    · rw [if_neg h0]
      by_cases h1 : 1000000 < parseFloat s
      · rw [if_pos h1]
        exact div_nonneg h (by norm_num)
      · rw [if_neg h1]
        exact h
  have hfail : ∀ (s : String) (p : ℚ), parseDecimal s = none →
      calculateValueUSD s p = 0 := by
    intro s p h
    have h0 : parseFloat s = 0 := by
      by_cases hs : s = "" <;> simp [parseFloat, hs, h]
    unfold calculateValueUSD
    rw [if_pos h0]
  have hsafe0 : ∀ s : String, parseDecimalLeading s = none → parseFloatSafe s = 0 := by
    intro s h
    by_cases hs : s = "" <;> simp [parseFloatSafe, hs, h]
  refine ⟨hnn sizeStr price, hfail sizeStr price, ?_,
    hnn td.size (parseFloat td.price), hfail td.size (parseFloat td.price),
    ?_, ?_, ?_, ?_⟩
  · intro tds
    simp [convertTrades]
  · rintro ⟨hp, hs⟩
    exact mul_nonneg hp hs
  · rintro (h | h)
    · show parseFloatSafe api.price * parseFloatSafe api.size = 0
      rw [hsafe0 api.price h, zero_mul]
    · show parseFloatSafe api.price * parseFloatSafe api.size = 0
      rw [hsafe0 api.size h, mul_zero]
  · intro tr htr
    rcases List.mem_filterMap.mp htr with ⟨evb, _, hsome⟩
    unfold bookEventTrade at hsome
    by_cases h1 : evb.lastTradePrice = "" ∨ evb.lastTradePrice = "0"
    · rw [if_pos h1] at hsome
      cases hsome
    · rw [if_neg h1] at hsome
      by_cases h2 : parseFloat evb.lastTradePrice = 0
      · rw [if_pos h2] at hsome
        cases hsome
      · rw [if_neg h2] at hsome
        cases Option.some.inj hsome
        rfl
  · intro hs tr htr
    unfold ltpEventTrades at htr
    by_cases ha : ev.assetId = ""
    · rw [if_pos ha] at htr
      cases htr
    · rw [if_neg ha] at htr
      rcases List.mem_singleton.mp htr with rfl
      exact hnn ev.size (parseFloat ev.price) hs

/-- Witness for `value_invariant_spec`: a parseable size of 100 gives a
non-negative value, an unparseable size gives value 0, and no trade is
dropped. -/
theorem value_invariant_spec_witness :
    (0 : ℚ) ≤ parseFloat ("100") ∧ 0 ≤ calculateValueUSD ("100") 0 ∧
    parseDecimal ("x") = none ∧ calculateValueUSD ("x") 0 = 0 ∧
    (convertTrades 0 [tdBadPriceEx]).length = 1 := by
  have h100 : (0 : ℚ) ≤ parseFloat ("100") := by
    rw [parseFloat_100]; norm_num
  have h := value_invariant_spec ("100") 0 0 emptyTradeData apiEx [] ltpEvEx
  have h2 := value_invariant_spec ("x") 0 0 emptyTradeData apiEx [] ltpEvEx
  exact ⟨h100, h.1 h100, rfl, h2.2.1 rfl, h2.2.2.1 [tdBadPriceEx]⟩

/-! ### Parse-error taxonomy (C7) -/

/-- The error outcomes of the envelope stage: either the envelope itself
fails to unmarshal, or it is a last_trade_price envelope whose event
payload fails to unmarshal. -/
theorem envelope_error_cases (now : Int) (j : Json)
    (herr : (ParseMessageEnvelope now j).isError = true) :
    unmarshalWSMessage j = none ∨
    (∃ msg, unmarshalWSMessage j = some msg ∧ msg.type = "last_trade_price" ∧
      unmarshalLastTradePriceEvent j = none) := by
  unfold ParseMessageEnvelope at herr
  rcases Option.eq_none_or_eq_some (unmarshalWSMessage j) with hws | ⟨msg, hws⟩
  · exact Or.inl hws
  · simp only [hws] at herr
    by_cases hty : msg.type = "last_trade_price"
    · rw [if_pos hty] at herr
      rcases Option.eq_none_or_eq_some (parseLastTradePrice now j) with hltp | ⟨trades, hltp⟩
      · unfold parseLastTradePrice at hltp
        rcases Option.eq_none_or_eq_some (unmarshalLastTradePriceEvent j) with hl | ⟨e, hl⟩
        · exact Or.inr ⟨msg, hws, hty, hl⟩
        · simp only [hl] at hltp
          exact Option.noConfusion hltp
      · simp only [hltp] at herr
        exact Bool.noConfusion herr
    · rw [if_neg hty] at herr
      by_cases htr : msg.type = "trade"
      · rw [if_pos htr] at herr
        cases herr
      · rw [if_neg htr] at herr
        cases herr

/-- The single-book stage either returns without error or defers to the
envelope stage. -/
theorem single_error_cases (now : Int) (j : Json)
    (herr : (ParseMessageSingle now j).isError = true) :
    unmarshalWSMessage j = none ∨
    (∃ msg, unmarshalWSMessage j = some msg ∧ msg.type = "last_trade_price" ∧
      unmarshalLastTradePriceEvent j = none) := by
  unfold ParseMessageSingle at herr
  rcases Option.eq_none_or_eq_some (unmarshalBookEvent j) with hbe | ⟨sb, hbe⟩
  · simp only [hbe] at herr
    exact envelope_error_cases now j herr
  · simp only [hbe] at herr
    by_cases hty : sb.eventType ≠ ""
    · rw [if_pos hty] at herr
      cases herr
    · rw [if_neg hty] at herr
      exact envelope_error_cases now j herr

/-- C7 counterexample: a payload that is a perfectly valid generic
envelope of type last_trade_price still makes `ParseMessage` return an
error when the event payload fails to unmarshal (numeric asset_id). -/
theorem parse_error_counterexample :
    unmarshalWSMessage ltpJsonBad = some ⟨"last_trade_price", "", none⟩ ∧
    (ParseMessage 0 ltpJsonBad).isError = true := ⟨rfl, rfl⟩

/-- C7 amended: `ParseMessage` errors only when the payload is not valid
as a generic envelope, or when it is a valid envelope of type
last_trade_price whose payload fails to unmarshal as a last-trade-price
event; a valid envelope matching none of the known shapes yields an empty
trade sequence, the bare discriminator, and no error. -/
theorem parse_error_spec (now : Int) (j : Json) :
    ((ParseMessage now j).isError = true →
      unmarshalWSMessage j = none ∨
      (∃ msg, unmarshalWSMessage j = some msg ∧ msg.type = "last_trade_price" ∧
        unmarshalLastTradePriceEvent j = none)) ∧
    (∀ msg, unmarshalWSMessage j = some msg →
      msg.type ≠ "last_trade_price" → msg.type ≠ "trade" →
      (∀ e rest, unmarshalBookArray j = some (e :: rest) →
        e.eventType ≠ "book" ∧ e.eventType ≠ "price_change") →
      (∀ ev, unmarshalBookEvent j = some ev → ev.eventType = "") →
      ParseMessage now j = ⟨[], msg.type, false⟩) := by
  constructor
  · intro herr
    unfold ParseMessage at herr
    rcases Option.eq_none_or_eq_some (unmarshalBookArray j) with hba | ⟨evs, hba⟩
    · simp only [hba] at herr
      exact single_error_cases now j herr
    · cases evs with
      | nil =>
        simp only [hba] at herr
        exact single_error_cases now j herr
      | cons e rest =>
        simp only [hba] at herr
        by_cases hty : e.eventType = "book" ∨ e.eventType = "price_change"
        · rw [if_pos hty] at herr
          cases herr
        · rw [if_neg hty] at herr
          exact single_error_cases now j herr
  · intro msg hws hty htr hbook hsingle
    have henvelope : ParseMessageEnvelope now j = ⟨[], msg.type, false⟩ := by
      unfold ParseMessageEnvelope
      simp only [hws]
      rw [if_neg hty, if_neg htr]
    have hsinglest : ParseMessageSingle now j = ⟨[], msg.type, false⟩ := by
      unfold ParseMessageSingle
      rcases Option.eq_none_or_eq_some (unmarshalBookEvent j) with hbe | ⟨sb, hbe⟩
      · simp only [hbe]
        exact henvelope
      · simp only [hbe]
        rw [if_neg (by simp [hsingle sb hbe])]
        exact henvelope
    unfold ParseMessage
    rcases Option.eq_none_or_eq_some (unmarshalBookArray j) with hba | ⟨evs, hba⟩
    · simp only [hba]
      exact hsinglest
    · cases evs with
      | nil =>
        simp only [hba]
        exact hsinglest
      | cons e rest =>
        simp only [hba]
        rw [if_neg ?_]
        · exact hsinglest
        · rcases hbook e rest hba with ⟨h1, h2⟩
          rintro (h | h)
          · exact h1 h
          · exact h2 h

/-- Witness for `parse_error_spec`: a pong envelope yields no trades, the
bare type, and no error. -/
theorem parse_error_spec_witness :
    unmarshalWSMessage pongJson = some ⟨"pong", "", none⟩ ∧
    ParseMessage 0 pongJson = ⟨[], "pong", false⟩ := by
  refine ⟨rfl, ?_⟩
  refine (parse_error_spec 0 pongJson).2 ⟨"pong", "", none⟩ rfl (by decide) (by decide)
    ?_ ?_
  · intro e rest hr
    rw [show unmarshalBookArray pongJson = none from rfl] at hr
    cases hr
  · intro ev hev
    rw [show unmarshalBookEvent pongJson = some emptyBookEvent from rfl] at hev
    cases Option.some.inj hev
    rfl

/-! ### Shape-1 book-array parsing (C8) -/

/-- The loop body skips an event exactly when its last trade price is
empty or parses to zero (the explicit `"0"` short-circuit is subsumed,
since the string 0 parses to zero). -/
theorem bookEventTrade_eq (now : Int) (ev : BookEvent) :
    bookEventTrade now ev =
      (if ev.lastTradePrice ≠ "" ∧ parseFloat ev.lastTradePrice ≠ 0 then
        some (mkBookTrade now ev)
      else none) := by
  unfold bookEventTrade
  by_cases h1 : ev.lastTradePrice = "" ∨ ev.lastTradePrice = "0"
  · rw [if_pos h1, if_neg ?_]
    rcases h1 with h1 | h1
    · rintro ⟨hne, -⟩
      exact hne h1
    · rintro ⟨-, hz⟩
      rw [h1, parseFloat_zero_str] at hz
      exact hz rfl
  · push_neg at h1
    rw [if_neg (by simp [h1.1, h1.2])]
    by_cases h2 : parseFloat ev.lastTradePrice = 0
    · rw [if_pos h2, if_neg ?_]
      rintro ⟨-, hz⟩
      exact hz h2
    · rw [if_neg h2, if_pos ⟨h1.1, h2⟩]

/-- A filter-map whose body is a guarded map is the map of the filter. -/
theorem filterMap_guard_eq_map_filter (now : Int) :
    ∀ events : List BookEvent,
      events.filterMap (bookEventTrade now) =
        (events.filter (fun ev =>
          decide (ev.lastTradePrice ≠ "") && decide (parseFloat ev.lastTradePrice ≠ 0))).map
          (mkBookTrade now) := by
  intro events
  induction events with
  | nil => rfl
  | cons x xs ih =>
    rw [List.filterMap_cons, List.filter_cons, bookEventTrade_eq]
    by_cases h : x.lastTradePrice ≠ "" ∧ parseFloat x.lastTradePrice ≠ 0
    · rw [if_pos h]
      have hb : (decide (x.lastTradePrice ≠ "") && decide (parseFloat x.lastTradePrice ≠ 0)) =
          true := by simp [h.1, h.2]
      rw [hb]
      simp [ih]
    · rw [if_neg h]
      have hb : (decide (x.lastTradePrice ≠ "") && decide (parseFloat x.lastTradePrice ≠ 0)) =
          false := by
        rcases Decidable.not_and_iff_or_not.mp h with h1 | h1 <;> simp [h1]
      rw [hb]
      simpa using ih

/-- C8: a shape-1 payload parses to one trade per usable book event (last
trade price non-empty and parsing to a non-zero number), each synthesized
trade carrying the parsed price, value 0 and the size marker book_update,
with the other events skipped. -/
theorem book_array_spec (now : Int) (j : Json) (e : BookEvent) (rest : List BookEvent)
    (hdec : unmarshalBookArray j = some (e :: rest))
    (hty : e.eventType = "book" ∨ e.eventType = "price_change") :
    ParseMessage now j = ⟨parseBookEvents now (e :: rest), "book_array", false⟩ ∧
    parseBookEvents now (e :: rest) =
      ((e :: rest).filter (fun ev =>
        decide (ev.lastTradePrice ≠ "") && decide (parseFloat ev.lastTradePrice ≠ 0))).map
        (mkBookTrade now) ∧
    (∀ tr ∈ parseBookEvents now (e :: rest),
      tr.valueUsd = 0 ∧ tr.size = "book_update" ∧
      ∃ ev ∈ (e :: rest), tr.price = parseFloat ev.lastTradePrice ∧
        parseFloat ev.lastTradePrice ≠ 0 ∧ ev.lastTradePrice ≠ "") := by
  refine ⟨?_, filterMap_guard_eq_map_filter now (e :: rest), ?_⟩
  · unfold ParseMessage
    simp only [hdec]
    rw [if_pos hty]
  · intro tr htr
    rcases List.mem_filterMap.mp htr with ⟨ev, hmem, hsome⟩
    rw [bookEventTrade_eq] at hsome
    by_cases h : ev.lastTradePrice ≠ "" ∧ parseFloat ev.lastTradePrice ≠ 0
    · rw [if_pos h] at hsome
      cases Option.some.inj hsome
      exact ⟨rfl, rfl, ev, hmem, rfl, h.2, h.1⟩
    · rw [if_neg h] at hsome
      exact Option.noConfusion hsome

/-- Witness for `book_array_spec`: the singleton payload with last trade
price 0.058 yields exactly one trade of price 0.058 and value 0. -/
theorem book_array_spec_witness :
    unmarshalBookArray bookJsonEx = some [bookEvEx] ∧
    (bookEvEx.eventType = "book" ∨ bookEvEx.eventType = "price_change") ∧
    ParseMessage 0 bookJsonEx = ⟨[mkBookTrade 0 bookEvEx], "book_array", false⟩ ∧
    (mkBookTrade 0 bookEvEx).price = (0.058 : ℚ) ∧
    (mkBookTrade 0 bookEvEx).valueUsd = 0 ∧
    (mkBookTrade 0 bookEvEx).size = "book_update" := by
  have hpf : parseFloat bookEvEx.lastTradePrice = 29 / 500 := parseFloat_0058
  have h := book_array_spec 0 bookJsonEx bookEvEx [] rfl (Or.inl rfl)
  have hone : parseBookEvents 0 [bookEvEx] = [mkBookTrade 0 bookEvEx] := by
    rw [h.2.1]
    rw [List.filter_cons, show (decide (bookEvEx.lastTradePrice ≠ "") &&
      decide (parseFloat bookEvEx.lastTradePrice ≠ 0)) = true from ?_]
    · rfl
    · rw [decide_eq_true (by decide : bookEvEx.lastTradePrice ≠ "")]
      rw [decide_eq_true (by rw [hpf]; norm_num : parseFloat bookEvEx.lastTradePrice ≠ 0)]
      rfl
  refine ⟨rfl, Or.inl rfl, ?_, ?_, rfl, rfl⟩
  · rw [h.1, hone]
  · rw [show (mkBookTrade 0 bookEvEx).price = parseFloat bookEvEx.lastTradePrice from rfl,
      hpf]
    norm_num

end Polyinsider
